import Mathlib

/-!
Shallow embedding of `smc_analyzer.py` (class `SMCAnalyzer`): swing-point
detection, market-structure classification and SMC signal scoring.

The price series (`df`, a pandas DataFrame in the source) is modelled as a
record holding the `High` and `Low` columns (each possibly absent, since a
malformed series may lack them) and the datetime index.  Column and index
accesses are modelled in the `Except` monad so that the source's
`try/except` boundaries become explicit catches; prices are rationals.
-/

/-- Trend values of the `structure['trend']` field. -/
inductive Trend
  | NEUTRAL
  | BULLISH
  | BEARISH
deriving DecidableEq, Repr

/-- The dict returned by `identify_market_structure`. -/
structure MarketStructure where
  trend : Trend
  bos_detected : Bool
  choch_detected : Bool
deriving DecidableEq, Repr

/-- The dicts appended by `find_swing_highs` / `find_swing_lows`:
`{'index': i, 'price': current_high, 'time': df.index[i]}`. -/
structure SwingPoint where
  index : Nat
  price : ℚ
  time : ℤ
deriving DecidableEq, Repr, Inhabited

/-- `signal_type` of the dict returned by `get_smc_signal`. -/
inductive SignalType
  | BUY
  | SELL
deriving DecidableEq, Repr

/-- The dict returned by `get_smc_signal` on success. -/
structure Signal where
  signal_type : SignalType
  confidence : ℚ
deriving DecidableEq, Repr

/-- The analyzer object; `__init__` sets `self.swing_length = 5`. -/
structure SMCAnalyzer where
  swing_length : Nat
deriving DecidableEq, Repr

/-- The input price series: the two columns the analyzer reads (possibly
missing, as in a malformed frame) and the datetime index.  `len(df)` is the
number of rows, i.e. the index length. -/
structure DataFrame where
  highCol : Option (List ℚ)
  lowCol : Option (List ℚ)
  index : List ℤ
deriving Repr

/-- `len(df)`. -/
def DataFrame.len (df : DataFrame) : Nat := df.index.length

/-- `df['High'].iloc[i]`: raises if the column is missing or `i` is out of
range. -/
def DataFrame.highAt (df : DataFrame) (i : Nat) : Except String ℚ :=
  match df.highCol with
  | none => .error "KeyError: High"
  | some c => if i < c.length then .ok (c.getD i 0) else .error "IndexError: High"

/-- `df['Low'].iloc[i]`: raises if the column is missing or `i` is out of
range. -/
def DataFrame.lowAt (df : DataFrame) (i : Nat) : Except String ℚ :=
  match df.lowCol with
  | none => .error "KeyError: Low"
  | some c => if i < c.length then .ok (c.getD i 0) else .error "IndexError: Low"

/-- `df.index[i]`. -/
def DataFrame.timeAt (df : DataFrame) (i : Nat) : Except String ℤ :=
  if i < df.index.length then .ok (df.index.getD i 0) else .error "IndexError: index"

/-- The inner loop of `find_swing_highs` over the window positions `j`:
`if j != i and df['High'].iloc[j] >= current_high: is_swing_high = False; break`.
Returns the final value of the `is_swing_high` flag. -/
def checkHigh (df : DataFrame) (current_high : ℚ) (i : Nat) : List Nat → Except String Bool
  | [] => .ok true
  | j :: js =>
    if j ≠ i then
      match df.highAt j with
      | .error e => .error e
      | .ok hj => if hj ≥ current_high then .ok false else checkHigh df current_high i js
    else checkHigh df current_high i js

/-- The inner loop of `find_swing_lows`:
`if j != i and df['Low'].iloc[j] <= current_low: is_swing_low = False; break`. -/
def checkLow (df : DataFrame) (current_low : ℚ) (i : Nat) : List Nat → Except String Bool
  | [] => .ok true
  | j :: js =>
    if j ≠ i then
      match df.lowAt j with
      | .error e => .error e
      | .ok lj => if lj ≤ current_low then .ok false else checkLow df current_low i js
    else checkLow df current_low i js

/-- The outer loop of `find_swing_highs` over candidate positions `i`,
appending `{'index': i, 'price': current_high, 'time': df.index[i]}` for
each position whose flag survived the window scan. -/
def swingHighsLoop (a : SMCAnalyzer) (df : DataFrame) : List Nat → Except String (List SwingPoint)
  | [] => .ok []
  | i :: rest =>
    match df.highAt i with
    | .error e => .error e
    | .ok current_high =>
      match checkHigh df current_high i
          (List.range' (i - a.swing_length) (2 * a.swing_length + 1)) with
      | .error e => .error e
      | .ok is_swing_high =>
        if is_swing_high then
          match df.timeAt i, swingHighsLoop a df rest with
          | .error e, _ => .error e
          | .ok _, .error e => .error e
          | .ok t, .ok tail => .ok (⟨i, current_high, t⟩ :: tail)
        else
          swingHighsLoop a df rest

/-- The outer loop of `find_swing_lows`. -/
def swingLowsLoop (a : SMCAnalyzer) (df : DataFrame) : List Nat → Except String (List SwingPoint)
  | [] => .ok []
  | i :: rest =>
    match df.lowAt i with
    | .error e => .error e
    | .ok current_low =>
      match checkLow df current_low i
          (List.range' (i - a.swing_length) (2 * a.swing_length + 1)) with
      | .error e => .error e
      | .ok is_swing_low =>
        if is_swing_low then
          match df.timeAt i, swingLowsLoop a df rest with
          | .error e, _ => .error e
          | .ok _, .error e => .error e
          | .ok t, .ok tail => .ok (⟨i, current_low, t⟩ :: tail)
        else
          swingLowsLoop a df rest

/-- `find_swing_highs(df)`: candidates run over
`range(self.swing_length, len(df) - self.swing_length)`. -/
def find_swing_highs (a : SMCAnalyzer) (df : DataFrame) : Except String (List SwingPoint) :=
  swingHighsLoop a df (List.range' a.swing_length (df.len - 2 * a.swing_length))

/-- `find_swing_lows(df)`. -/
def find_swing_lows (a : SMCAnalyzer) (df : DataFrame) : Except String (List SwingPoint) :=
  swingLowsLoop a df (List.range' a.swing_length (df.len - 2 * a.swing_length))

/-- The body of `identify_market_structure` after the two swing lists are
computed: the dict starts `{NEUTRAL, False, False}` and is overwritten in the
`len >= 2` branches; `recent_highs = swing_highs[-2:]` etc. (`recent[0]`
and `recent[1]` are only read under the length guard, so the `getD`
defaults are never hit). -/
def structureOf (swing_highs swing_lows : List SwingPoint) : MarketStructure :=
  if 2 ≤ swing_highs.length ∧ 2 ≤ swing_lows.length then
    let recent_highs := swing_highs.drop (swing_highs.length - 2)
    let recent_lows := swing_lows.drop (swing_lows.length - 2)
    if (recent_highs.getD 1 default).price > (recent_highs.getD 0 default).price ∧
       (recent_lows.getD 1 default).price > (recent_lows.getD 0 default).price then
      ⟨.BULLISH, true, false⟩
    else if (recent_highs.getD 1 default).price < (recent_highs.getD 0 default).price ∧
            (recent_lows.getD 1 default).price < (recent_lows.getD 0 default).price then
      ⟨.BEARISH, true, false⟩
    else ⟨.NEUTRAL, false, false⟩
  else ⟨.NEUTRAL, false, false⟩

/-- The `try` block of `identify_market_structure`: `find_swing_highs` runs
first, so its exception short-circuits; otherwise the pure classification
`structureOf` is applied. -/
def identifyInner (a : SMCAnalyzer) (df : DataFrame) : Except String MarketStructure :=
  match find_swing_highs a df, find_swing_lows a df with
  | .error e, _ => .error e
  | .ok _, .error e => .error e
  | .ok swing_highs, .ok swing_lows => .ok (structureOf swing_highs swing_lows)

/-- `identify_market_structure(df)`: the `except` clause logs and returns
`{'trend': 'NEUTRAL', 'bos_detected': False, 'choch_detected': False}`. -/
def identify_market_structure (a : SMCAnalyzer) (df : DataFrame) : MarketStructure :=
  match identifyInner a df with
  | .ok s => s
  | .error _ => ⟨.NEUTRAL, false, false⟩

/-- The score-accumulation portion of `get_smc_signal` (lines building
`buy_score` / `sell_score` from the market structure):
`if trend == 'BULLISH': buy += 3 elif trend == 'BEARISH': sell += 3`, then
`if bos_detected: (if trend == 'BULLISH': buy += 4 else: sell += 4)`. -/
def smcScores (ms : MarketStructure) : Nat × Nat :=
  let scores : Nat × Nat := (0, 0)
  let scores :=
    if ms.trend = .BULLISH then (scores.1 + 3, scores.2)
    else if ms.trend = .BEARISH then (scores.1, scores.2 + 3)
    else scores
  if ms.bos_detected then
    if ms.trend = .BULLISH then (scores.1 + 4, scores.2)
    else (scores.1, scores.2 + 4)
  else scores

/-- Python `min(a, b)`. -/
def pymin (x y : ℚ) : ℚ := if x ≤ y then x else y

/-- Python `round(x, 1)` on an exact rational: round half to even at the
first decimal. -/
def round1 (x : ℚ) : ℚ :=
  let y := x * 10
  let n : ℤ := Rat.floor y
  let r :=
    if y - n < 1 / 2 then n
    else if (1 : ℚ) / 2 < y - n then n + 1
    else if n % 2 = 0 then n else n + 1
  (r : ℚ) / 10

/-- The decision portion of `get_smc_signal`: compute `total_score`, return
`None` on zero total, otherwise emit the dominant side when it also clears
the `>= 3` floor, with `confidence = round(min(score/total*100, 95), 1)`. -/
def signalFromScores (scores : Nat × Nat) : Option Signal :=
  let buy_score := scores.1
  let sell_score := scores.2
  let total_score := buy_score + sell_score
  if total_score = 0 then none
  else if buy_score > sell_score ∧ buy_score ≥ 3 then
    some ⟨.BUY, round1 (pymin ((buy_score : ℚ) / (total_score : ℚ) * 100) 95)⟩
  else if sell_score > buy_score ∧ sell_score ≥ 3 then
    some ⟨.SELL, round1 (pymin ((sell_score : ℚ) / (total_score : ℚ) * 100) 95)⟩
  else none

/-- `get_smc_signal(df)`.  The `if not market_structure: return None` guard
never fires (the structure dict always has three keys, hence is truthy), and
every step after `identify_market_structure` (which already catches its own
errors) is total, so the surrounding `try/except → None` boundary has no
reachable error to catch. -/
def get_smc_signal (a : SMCAnalyzer) (df : DataFrame) : Option Signal :=
  signalFromScores (smcScores (identify_market_structure a df))

/-- The Boolean swing-high predicate at position `i` over the High column
`hs`: every other position in the symmetric window carries a strictly
smaller high. -/
def isSwingHighAt (a : SMCAnalyzer) (hs : List ℚ) (i : Nat) : Bool :=
  (List.range' (i - a.swing_length) (2 * a.swing_length + 1)).all
    (fun j => j == i || decide (hs.getD j 0 < hs.getD i 0))

/-- The Boolean swing-low predicate at position `i` over the Low column. -/
def isSwingLowAt (a : SMCAnalyzer) (ls : List ℚ) (i : Nat) : Bool :=
  (List.range' (i - a.swing_length) (2 * a.swing_length + 1)).all
    (fun j => j == i || decide (ls.getD i 0 < ls.getD j 0))

/-- Well-formedness of a price series: both columns present, with one entry
per row of the index. -/
def DataFrame.WF (df : DataFrame) (hs ls : List ℚ) : Prop :=
  df.highCol = some hs ∧ hs.length = df.len ∧
    df.lowCol = some ls ∧ ls.length = df.len

/-- High column of a concrete 17-bar series with strict maxima at
positions 5 and 11 (a higher high). -/
def bullHighs : List ℚ :=
  [10, 11, 12, 13, 14, 20, 14, 13, 12, 11, 12, 21, 12, 11, 10, 9, 8]

/-- Low column of the same series, with strict minima at positions 5 and 11
(a higher low). -/
def bullLows : List ℚ :=
  [10, 9, 8, 7, 6, 1, 6, 7, 8, 9, 8, 2, 8, 9, 10, 11, 12]

/-- Concrete 17-bar series: swing highs at positions 5 and 11 (higher high)
and swing lows at positions 5 and 11 (higher low), so the structure is
BULLISH with a BOS. -/
def dfBull : DataFrame :=
  { highCol := some bullHighs,
    lowCol := some bullLows,
    index := [0, 1, 2, 3, 4, 5, 6, 7, 8, 9, 10, 11, 12, 13, 14, 15, 16] }

/-- The swing highs that `find_swing_highs` returns on `dfBull` with the
default window. -/
def bullSwingHighs : List SwingPoint := [⟨5, 20, 5⟩, ⟨11, 21, 11⟩]

/-- The swing lows that `find_swing_lows` returns on `dfBull` with the
default window. -/
def bullSwingLows : List SwingPoint := [⟨5, 1, 5⟩, ⟨11, 2, 11⟩]

/-- A malformed frame: eleven rows but no `High`/`Low` columns. -/
def dfNoHigh : DataFrame :=
  { highCol := none, lowCol := none, index := [0, 1, 2, 3, 4, 5, 6, 7, 8, 9, 10] }

/-- A well-formed but short series (three rows). -/
def dfShort : DataFrame :=
  { highCol := some [1, 2, 3], lowCol := some [0, 1, 2], index := [0, 1, 2] }

/-! ## Helper lemmas -/

theorem rat_floor_eq_intFloor (q : ℚ) : Rat.floor q = ⌊q⌋ := rfl

theorem round1_intCast (n : ℤ) : round1 ((n : ℚ)) = (n : ℚ) := by
  show (_ : ℚ) / 10 = (n : ℚ)
  have h1 : (n : ℚ) * 10 = ((10 * n : ℤ) : ℚ) := by push_cast; ring
  rw [rat_floor_eq_intFloor, h1, Int.floor_intCast, sub_self,
    if_pos (by norm_num : (0 : ℚ) < 1 / 2)]
  push_cast
  ring

theorem round1_95 : round1 95 = 95 := by
  have h := round1_intCast 95
  push_cast at h
  exact h

theorem conf_eval (k : ℕ) (hk : k ≠ 0) :
    round1 (pymin ((k : ℚ) / ((k : ℚ)) * 100) 95) = 95 := by
  have h1 : (k : ℚ) / (k : ℚ) = 1 := by
    rw [div_self]
    exact_mod_cast hk
  rw [h1]
  norm_num
  rw [show pymin 100 95 = 95 by unfold pymin; norm_num]
  exact round1_95

theorem structureOf_cases (sh sl : List SwingPoint) :
    structureOf sh sl = ⟨.NEUTRAL, false, false⟩ ∨
      structureOf sh sl = ⟨.BULLISH, true, false⟩ ∨
      structureOf sh sl = ⟨.BEARISH, true, false⟩ := by
  simp only [structureOf]
  split_ifs with h1 h2 h3
  · right; left; rfl
  · right; right; rfl
  · left; rfl
  · left; rfl

theorem identifyInner_ok_shape (a : SMCAnalyzer) (df : DataFrame) (s : MarketStructure)
    (h : identifyInner a df = .ok s) : ∃ sh sl, s = structureOf sh sl := by
  unfold identifyInner at h
  cases h1 : find_swing_highs a df with
  | error e => rw [h1] at h; exact absurd h (by simp)
  | ok sh =>
    cases h2 : find_swing_lows a df with
    | error e => rw [h1, h2] at h; exact absurd h (by simp)
    | ok sl =>
      rw [h1, h2] at h
      simp only [Except.ok.injEq] at h
      exact ⟨sh, sl, h.symm⟩

theorem identify_cases (a : SMCAnalyzer) (df : DataFrame) :
    identify_market_structure a df = ⟨.NEUTRAL, false, false⟩ ∨
      identify_market_structure a df = ⟨.BULLISH, true, false⟩ ∨
      identify_market_structure a df = ⟨.BEARISH, true, false⟩ := by
  unfold identify_market_structure
  cases h : identifyInner a df with
  | error e => simp
  | ok s =>
    obtain ⟨sh, sl, rfl⟩ := identifyInner_ok_shape a df s h
    exact structureOf_cases sh sl

theorem signalFromScores_buy (w : ℕ) (hw : 3 ≤ w) :
    signalFromScores (w, 0) = some ⟨.BUY, 95⟩ := by
  dsimp only [signalFromScores]
  rw [if_neg (by omega : ¬(w + 0 = 0)),
    if_pos (⟨by omega, hw⟩ : w > 0 ∧ w ≥ 3)]
  have hc : round1 (pymin ((w : ℚ) / ((w : ℚ)) * 100) 95) = 95 :=
    conf_eval w (by omega)
  simp only [Nat.add_zero] at hc ⊢
  rw [hc]

theorem signalFromScores_sell (w : ℕ) (hw : 3 ≤ w) :
    signalFromScores (0, w) = some ⟨.SELL, 95⟩ := by
  dsimp only [signalFromScores]
  rw [if_neg (by omega : ¬(0 + w = 0)),
    if_neg (by omega : ¬(0 > w ∧ (0 : ℕ) ≥ 3)),
    if_pos (⟨by omega, hw⟩ : w > 0 ∧ w ≥ 3)]
  have hc : round1 (pymin ((w : ℚ) / ((w : ℚ)) * 100) 95) = 95 :=
    conf_eval w (by omega)
  simp only [Nat.zero_add] at hc ⊢
  rw [hc]

theorem signal_of_smcScores_cases (ms : MarketStructure) :
    signalFromScores (smcScores ms) = none ∨
      signalFromScores (smcScores ms) = some ⟨.BUY, 95⟩ ∨
      signalFromScores (smcScores ms) = some ⟨.SELL, 95⟩ := by
  obtain ⟨t, b, c⟩ := ms
  cases t <;> cases b
  · left; rfl
  · right; right
    rw [show smcScores ⟨.NEUTRAL, true, c⟩ = (0, 4) from rfl]
    exact signalFromScores_sell 4 (by omega)
  · right; left
    rw [show smcScores ⟨.BULLISH, false, c⟩ = (3, 0) from rfl]
    exact signalFromScores_buy 3 (by omega)
  · right; left
    rw [show smcScores ⟨.BULLISH, true, c⟩ = (7, 0) from rfl]
    exact signalFromScores_buy 7 (by omega)
  · right; right
    rw [show smcScores ⟨.BEARISH, false, c⟩ = (0, 3) from rfl]
    exact signalFromScores_sell 3 (by omega)
  · right; right
    rw [show smcScores ⟨.BEARISH, true, c⟩ = (0, 7) from rfl]
    exact signalFromScores_sell 7 (by omega)

theorem get_smc_signal_dfBull : get_smc_signal ⟨5⟩ dfBull = some ⟨.BUY, 95⟩ := by
  have hid : identify_market_structure ⟨5⟩ dfBull = ⟨.BULLISH, true, false⟩ := by decide
  unfold get_smc_signal
  rw [hid, show smcScores ⟨.BULLISH, true, false⟩ = (7, 0) from rfl]
  exact signalFromScores_buy 7 (by omega)

/-! ## Claim theorems -/

/-- C1 (counterexample): the scorer fed the structure
`{trend = NEUTRAL, bos_detected = true}` does not leave both scores at 0,
contrary to the claim — the `else` branch of the BOS bonus fires. -/
theorem c1_scoring_table_counterexample :
    ¬ (smcScores ⟨.NEUTRAL, true, false⟩ = (0, 0)) := by decide

/-- C1 (amended): for every market structure fed to the scorer, the sell
tally receives the +4 BOS bonus exactly when `bos_detected` is true AND the
trend is not BULLISH (the buy tally exactly when `bos_detected` and
BULLISH); in particular a structure with `bos_detected` true and trend
NEUTRAL yields `buy_score = 0`, `sell_score = 4`. -/
theorem c1_scoring_table_amended :
    (∀ ms : MarketStructure,
      smcScores ms =
        ((if ms.trend = .BULLISH then 3 else 0) +
           (if ms.bos_detected = true ∧ ms.trend = .BULLISH then 4 else 0),
         (if ms.trend = .BEARISH then 3 else 0) +
           (if ms.bos_detected = true ∧ ms.trend ≠ .BULLISH then 4 else 0))) ∧
    smcScores ⟨.NEUTRAL, true, false⟩ = (0, 4) := by
  constructor
  · rintro ⟨t, b, c⟩
    cases t <;> cases b <;> cases c <;> decide
  · decide

/-- C4: when the inner computation of `identify_market_structure` raises
(e.g. on a series missing the required columns), the exception is caught:
the structure result is the safe default `{NEUTRAL, false, false}` and the
signal result is "no signal". -/
theorem c4_exception_safe_defaults (a : SMCAnalyzer) (df : DataFrame) (e : String)
    (h : identifyInner a df = .error e) :
    identify_market_structure a df = ⟨.NEUTRAL, false, false⟩ ∧
      get_smc_signal a df = none := by
  have h1 : identify_market_structure a df = ⟨.NEUTRAL, false, false⟩ := by
    unfold identify_market_structure
    rw [h]
  refine ⟨h1, ?_⟩
  unfold get_smc_signal
  rw [h1]
  rfl

theorem c4_exception_safe_defaults_witness :
    identify_market_structure ⟨5⟩ dfNoHigh = ⟨.NEUTRAL, false, false⟩ ∧
      get_smc_signal ⟨5⟩ dfNoHigh = none :=
  c4_exception_safe_defaults ⟨5⟩ dfNoHigh "KeyError: High" rfl

/-- C5: in the structure returned by `identify_market_structure`,
`bos_detected` is true exactly when the trend is BULLISH or BEARISH. -/
theorem c5_bos_iff_directional_trend (a : SMCAnalyzer) (df : DataFrame) :
    (identify_market_structure a df).bos_detected = true ↔
      ((identify_market_structure a df).trend = .BULLISH ∨
        (identify_market_structure a df).trend = .BEARISH) := by
  rcases identify_cases a df with h | h | h <;> rw [h] <;> simp

/-- C6: whenever the classified structure is `{BULLISH, bos_detected =
true}`, the scorer tallies buy = 7, sell = 0 and `get_smc_signal` returns a
BUY signal with confidence exactly 95. -/
theorem c6_bullish_bos_buy95 (a : SMCAnalyzer) (df : DataFrame)
    (h : identify_market_structure a df = ⟨.BULLISH, true, false⟩) :
    smcScores (identify_market_structure a df) = (7, 0) ∧
      get_smc_signal a df = some ⟨.BUY, 95⟩ := by
  rw [h]
  refine ⟨rfl, ?_⟩
  unfold get_smc_signal
  rw [h, show smcScores ⟨.BULLISH, true, false⟩ = (7, 0) from rfl]
  exact signalFromScores_buy 7 (by omega)

theorem c6_bullish_bos_buy95_witness :
    smcScores (identify_market_structure ⟨5⟩ dfBull) = (7, 0) ∧
      get_smc_signal ⟨5⟩ dfBull = some ⟨.BUY, 95⟩ :=
  c6_bullish_bos_buy95 ⟨5⟩ dfBull (by decide)

/-- C7: every signal actually returned by `get_smc_signal` has a confidence
in `[0, 95]` that is an integer multiple of one tenth. -/
theorem c7_confidence_bounded (a : SMCAnalyzer) (df : DataFrame) (sig : Signal)
    (h : get_smc_signal a df = some sig) :
    0 ≤ sig.confidence ∧ sig.confidence ≤ 95 ∧
      ∃ k : ℤ, sig.confidence = (k : ℚ) / 10 := by
  unfold get_smc_signal at h
  rcases signal_of_smcScores_cases (identify_market_structure a df) with hc | hc | hc <;>
    rw [hc] at h
  · cases h
  · have hsig : sig = ⟨.BUY, 95⟩ := by injection h with h; exact h.symm
    rw [hsig]
    refine ⟨by norm_num, by norm_num, 950, by norm_num⟩
  · have hsig : sig = ⟨.SELL, 95⟩ := by injection h with h; exact h.symm
    rw [hsig]
    refine ⟨by norm_num, by norm_num, 950, by norm_num⟩

theorem c7_confidence_bounded_witness :
    0 ≤ (Signal.mk .BUY 95).confidence ∧ (Signal.mk .BUY 95).confidence ≤ 95 ∧
      ∃ k : ℤ, (Signal.mk .BUY 95).confidence = (k : ℚ) / 10 :=
  c7_confidence_bounded ⟨5⟩ dfBull ⟨.BUY, 95⟩ get_smc_signal_dfBull

/-- C8: a series shorter than `2 * swing_length + 1` rows yields empty swing
lists from both detectors. -/
theorem c8_short_series_empty (a : SMCAnalyzer) (df : DataFrame)
    (h : df.len < 2 * a.swing_length + 1) :
    find_swing_highs a df = .ok [] ∧ find_swing_lows a df = .ok [] := by
  have h0 : df.len - 2 * a.swing_length = 0 := by omega
  constructor
  · unfold find_swing_highs
    rw [h0, List.range'_zero]
    rfl
  · unfold find_swing_lows
    rw [h0, List.range'_zero]
    rfl

theorem c8_short_series_empty_witness :
    find_swing_highs ⟨5⟩ dfShort = .ok [] ∧ find_swing_lows ⟨5⟩ dfShort = .ok [] :=
  c8_short_series_empty ⟨5⟩ dfShort (by decide)

/-- C9: the `choch_detected` field returned by `identify_market_structure`
is false on every input, error branch included. -/
theorem c9_choch_never_set (a : SMCAnalyzer) (df : DataFrame) :
    (identify_market_structure a df).choch_detected = false := by
  rcases identify_cases a df with h | h | h <;> rw [h]

theorem highAt_eq (df : DataFrame) (hs : List ℚ) (j : Nat)
    (hcol : df.highCol = some hs) (hj : j < hs.length) :
    df.highAt j = .ok (hs.getD j 0) := by
  unfold DataFrame.highAt
  rw [hcol]
  exact if_pos hj

theorem lowAt_eq (df : DataFrame) (ls : List ℚ) (j : Nat)
    (hcol : df.lowCol = some ls) (hj : j < ls.length) :
    df.lowAt j = .ok (ls.getD j 0) := by
  unfold DataFrame.lowAt
  rw [hcol]
  exact if_pos hj

theorem timeAt_eq (df : DataFrame) (i : Nat) (hi : i < df.index.length) :
    df.timeAt i = .ok (df.index.getD i 0) := by
  unfold DataFrame.timeAt
  exact if_pos hi

theorem checkHigh_eq (df : DataFrame) (hs : List ℚ) (ch : ℚ) (i : Nat)
    (hcol : df.highCol = some hs) :
    ∀ js : List Nat, (∀ j ∈ js, j < hs.length) →
      checkHigh df ch i js = .ok (js.all fun j => j == i || decide (hs.getD j 0 < ch))
  | [], _ => rfl
  | j :: js, hbound => by
    have hj : j < hs.length := hbound j (List.mem_cons_self j js)
    have hrest : ∀ x ∈ js, x < hs.length := fun x hx => hbound x (List.mem_cons_of_mem j hx)
    have hh : df.highAt j = .ok (hs.getD j 0) := highAt_eq df hs j hcol hj
    by_cases hji : j = i
    · subst hji
      simp only [checkHigh, if_neg (by simp : ¬(j ≠ j))]
      rw [checkHigh_eq df hs ch j hcol js hrest, List.all_cons, beq_self_eq_true,
        Bool.true_or, Bool.true_and]
    · have hb : (j == i) = false := by simp [hji]
      by_cases hcmp : hs.getD j 0 ≥ ch
      · simp only [checkHigh, if_pos hji, hh]
        rw [if_pos hcmp, List.all_cons, hb,
          decide_eq_false (not_lt.mpr hcmp), Bool.or_self, Bool.false_and]
      · simp only [checkHigh, if_pos hji, hh]
        rw [if_neg hcmp, checkHigh_eq df hs ch i hcol js hrest, List.all_cons, hb,
          decide_eq_true (lt_of_not_ge hcmp), Bool.or_true, Bool.true_and]

theorem checkLow_eq (df : DataFrame) (ls : List ℚ) (cl : ℚ) (i : Nat)
    (hcol : df.lowCol = some ls) :
    ∀ js : List Nat, (∀ j ∈ js, j < ls.length) →
      checkLow df cl i js = .ok (js.all fun j => j == i || decide (cl < ls.getD j 0))
  | [], _ => rfl
  | j :: js, hbound => by
    have hj : j < ls.length := hbound j (List.mem_cons_self j js)
    have hrest : ∀ x ∈ js, x < ls.length := fun x hx => hbound x (List.mem_cons_of_mem j hx)
    have hh : df.lowAt j = .ok (ls.getD j 0) := lowAt_eq df ls j hcol hj
    by_cases hji : j = i
    · subst hji
      simp only [checkLow, if_neg (by simp : ¬(j ≠ j))]
      rw [checkLow_eq df ls cl j hcol js hrest, List.all_cons, beq_self_eq_true,
        Bool.true_or, Bool.true_and]
    · have hb : (j == i) = false := by simp [hji]
      by_cases hcmp : ls.getD j 0 ≤ cl
      · simp only [checkLow, if_pos hji, hh]
        rw [if_pos hcmp, List.all_cons, hb,
          decide_eq_false (not_lt.mpr hcmp), Bool.or_self, Bool.false_and]
      · simp only [checkLow, if_pos hji, hh]
        rw [if_neg hcmp, checkLow_eq df ls cl i hcol js hrest, List.all_cons, hb,
          decide_eq_true (lt_of_not_le hcmp), Bool.or_true, Bool.true_and]

theorem swingHighsLoop_eq (a : SMCAnalyzer) (df : DataFrame) (hs : List ℚ)
    (hcol : df.highCol = some hs) (hlen : hs.length = df.len) :
    ∀ L : List Nat, (∀ i ∈ L, a.swing_length ≤ i ∧ i + a.swing_length < df.len) →
      swingHighsLoop a df L =
        .ok ((L.filter (fun i => isSwingHighAt a hs i)).map
          (fun i => ⟨i, hs.getD i 0, df.index.getD i 0⟩))
  | [], _ => rfl
  | i :: rest, hL => by
    have hi : a.swing_length ≤ i ∧ i + a.swing_length < df.len :=
      hL i (List.mem_cons_self i rest)
    have hiL : i < hs.length := by omega
    have hiIdx : i < df.index.length := by
      have h' : df.index.length = df.len := rfl
      omega
    have hwin : ∀ j ∈ List.range' (i - a.swing_length) (2 * a.swing_length + 1),
        j < hs.length := by
      intro j hj
      rw [List.mem_range'_1] at hj
      omega
    have hh : df.highAt i = .ok (hs.getD i 0) := highAt_eq df hs i hcol hiL
    have hchk : checkHigh df (hs.getD i 0) i
        (List.range' (i - a.swing_length) (2 * a.swing_length + 1)) =
          .ok (isSwingHighAt a hs i) :=
      checkHigh_eq df hs (hs.getD i 0) i hcol _ hwin
    have ht : df.timeAt i = .ok (df.index.getD i 0) := timeAt_eq df i hiIdx
    have hrec := swingHighsLoop_eq a df hs hcol hlen rest
      (fun x hx => hL x (List.mem_cons_of_mem i hx))
    simp only [swingHighsLoop, hh, hchk, ht, hrec]
    by_cases hsw : isSwingHighAt a hs i = true
    · rw [if_pos hsw, List.filter_cons_of_pos (by simpa using hsw), List.map_cons]
    · rw [if_neg hsw, List.filter_cons_of_neg (by simpa using hsw)]

theorem swingLowsLoop_eq (a : SMCAnalyzer) (df : DataFrame) (ls : List ℚ)
    (hcol : df.lowCol = some ls) (hlen : ls.length = df.len) :
    ∀ L : List Nat, (∀ i ∈ L, a.swing_length ≤ i ∧ i + a.swing_length < df.len) →
      swingLowsLoop a df L =
        .ok ((L.filter (fun i => isSwingLowAt a ls i)).map
          (fun i => ⟨i, ls.getD i 0, df.index.getD i 0⟩))
  | [], _ => rfl
  | i :: rest, hL => by
    have hi : a.swing_length ≤ i ∧ i + a.swing_length < df.len :=
      hL i (List.mem_cons_self i rest)
    have hiL : i < ls.length := by omega
    have hiIdx : i < df.index.length := by
      have h' : df.index.length = df.len := rfl
      omega
    have hwin : ∀ j ∈ List.range' (i - a.swing_length) (2 * a.swing_length + 1),
        j < ls.length := by
      intro j hj
      rw [List.mem_range'_1] at hj
      omega
    have hh : df.lowAt i = .ok (ls.getD i 0) := lowAt_eq df ls i hcol hiL
    have hchk : checkLow df (ls.getD i 0) i
        (List.range' (i - a.swing_length) (2 * a.swing_length + 1)) =
          .ok (isSwingLowAt a ls i) :=
      checkLow_eq df ls (ls.getD i 0) i hcol _ hwin
    have ht : df.timeAt i = .ok (df.index.getD i 0) := timeAt_eq df i hiIdx
    have hrec := swingLowsLoop_eq a df ls hcol hlen rest
      (fun x hx => hL x (List.mem_cons_of_mem i hx))
    simp only [swingLowsLoop, hh, hchk, ht, hrec]
    by_cases hsw : isSwingLowAt a ls i = true
    · rw [if_pos hsw, List.filter_cons_of_pos (by simpa using hsw), List.map_cons]
    · rw [if_neg hsw, List.filter_cons_of_neg (by simpa using hsw)]

theorem find_swing_highs_eq (a : SMCAnalyzer) (df : DataFrame) (hs : List ℚ)
    (hcol : df.highCol = some hs) (hlen : hs.length = df.len) :
    find_swing_highs a df =
      .ok (((List.range' a.swing_length (df.len - 2 * a.swing_length)).filter
        (fun i => isSwingHighAt a hs i)).map
          (fun i => ⟨i, hs.getD i 0, df.index.getD i 0⟩)) := by
  apply swingHighsLoop_eq a df hs hcol hlen
  intro i hi
  rw [List.mem_range'_1] at hi
  omega

theorem find_swing_lows_eq (a : SMCAnalyzer) (df : DataFrame) (ls : List ℚ)
    (hcol : df.lowCol = some ls) (hlen : ls.length = df.len) :
    find_swing_lows a df =
      .ok (((List.range' a.swing_length (df.len - 2 * a.swing_length)).filter
        (fun i => isSwingLowAt a ls i)).map
          (fun i => ⟨i, ls.getD i 0, df.index.getD i 0⟩)) := by
  apply swingLowsLoop_eq a df ls hcol hlen
  intro i hi
  rw [List.mem_range'_1] at hi
  omega

theorem isSwingHighAt_iff (a : SMCAnalyzer) (hs : List ℚ) (i : Nat)
    (hWi : a.swing_length ≤ i) :
    isSwingHighAt a hs i = true ↔
      ∀ j, i - a.swing_length ≤ j → j ≤ i + a.swing_length → j ≠ i →
        hs.getD j 0 < hs.getD i 0 := by
  unfold isSwingHighAt
  rw [List.all_eq_true]
  constructor
  · intro h j h1 h2 h3
    have hj : j ∈ List.range' (i - a.swing_length) (2 * a.swing_length + 1) := by
      rw [List.mem_range'_1]
      omega
    have hh := h j hj
    rw [Bool.or_eq_true] at hh
    rcases hh with hh | hh
    · exact absurd (by simpa using hh) h3
    · simpa using hh
  · intro h j hj
    rw [List.mem_range'_1] at hj
    by_cases hji : j = i
    · simp [hji]
    · rw [Bool.or_eq_true]
      right
      simpa using h j (by omega) (by omega) hji

theorem isSwingLowAt_iff (a : SMCAnalyzer) (ls : List ℚ) (i : Nat)
    (hWi : a.swing_length ≤ i) :
    isSwingLowAt a ls i = true ↔
      ∀ j, i - a.swing_length ≤ j → j ≤ i + a.swing_length → j ≠ i →
        ls.getD i 0 < ls.getD j 0 := by
  unfold isSwingLowAt
  rw [List.all_eq_true]
  constructor
  · intro h j h1 h2 h3
    have hj : j ∈ List.range' (i - a.swing_length) (2 * a.swing_length + 1) := by
      rw [List.mem_range'_1]
      omega
    have hh := h j hj
    rw [Bool.or_eq_true] at hh
    rcases hh with hh | hh
    · exact absurd (by simpa using hh) h3
    · simpa using hh
  · intro h j hj
    rw [List.mem_range'_1] at hj
    by_cases hji : j = i
    · simp [hji]
    · rw [Bool.or_eq_true]
      right
      simpa using h j (by omega) (by omega) hji

theorem mem_swing_high_points (a : SMCAnalyzer) (df : DataFrame) (hs : List ℚ) (p : SwingPoint) :
    p ∈ ((List.range' a.swing_length (df.len - 2 * a.swing_length)).filter
        (fun i => isSwingHighAt a hs i)).map
          (fun i => (⟨i, hs.getD i 0, df.index.getD i 0⟩ : SwingPoint)) ↔
      (a.swing_length ≤ p.index ∧ p.index + a.swing_length + 1 ≤ df.len ∧
        isSwingHighAt a hs p.index = true ∧
        p.price = hs.getD p.index 0 ∧ p.time = df.index.getD p.index 0) := by
  rw [List.mem_map]
  constructor
  · rintro ⟨i, hi, rfl⟩
    rw [List.mem_filter, List.mem_range'_1] at hi
    obtain ⟨⟨hiW, hiU⟩, hiP⟩ := hi
    exact ⟨hiW, by show i + a.swing_length + 1 ≤ df.len; omega, hiP, rfl, rfl⟩
  · rintro ⟨h1, h2, h3, h4, h5⟩
    refine ⟨p.index, ?_, ?_⟩
    · rw [List.mem_filter, List.mem_range'_1]
      exact ⟨⟨h1, by omega⟩, h3⟩
    · obtain ⟨pi, pp, pt⟩ := p
      simp only at h4 h5
      rw [h4, h5]

theorem mem_swing_low_points (a : SMCAnalyzer) (df : DataFrame) (ls : List ℚ) (p : SwingPoint) :
    p ∈ ((List.range' a.swing_length (df.len - 2 * a.swing_length)).filter
        (fun i => isSwingLowAt a ls i)).map
          (fun i => (⟨i, ls.getD i 0, df.index.getD i 0⟩ : SwingPoint)) ↔
      (a.swing_length ≤ p.index ∧ p.index + a.swing_length + 1 ≤ df.len ∧
        isSwingLowAt a ls p.index = true ∧
        p.price = ls.getD p.index 0 ∧ p.time = df.index.getD p.index 0) := by
  rw [List.mem_map]
  constructor
  · rintro ⟨i, hi, rfl⟩
    rw [List.mem_filter, List.mem_range'_1] at hi
    obtain ⟨⟨hiW, hiU⟩, hiP⟩ := hi
    exact ⟨hiW, by show i + a.swing_length + 1 ≤ df.len; omega, hiP, rfl, rfl⟩
  · rintro ⟨h1, h2, h3, h4, h5⟩
    refine ⟨p.index, ?_, ?_⟩
    · rw [List.mem_filter, List.mem_range'_1]
      exact ⟨⟨h1, by omega⟩, h3⟩
    · obtain ⟨pi, pp, pt⟩ := p
      simp only at h4 h5
      rw [h4, h5]

theorem swing_points_pairwise (a : SMCAnalyzer) (df : DataFrame) (c : List ℚ)
    (pred : SMCAnalyzer → List ℚ → Nat → Bool) :
    List.Pairwise (fun p q : SwingPoint => p.index < q.index)
      (((List.range' a.swing_length (df.len - 2 * a.swing_length)).filter
        (fun i => pred a c i)).map
          (fun i => (⟨i, c.getD i 0, df.index.getD i 0⟩ : SwingPoint))) := by
  rw [List.pairwise_map]
  exact ((List.pairwise_lt_range' _ _ 1 (by simp)).filter _).imp (fun h => h)

/-- C2: a position `i` carries a swing high iff it admits a full window on
both sides (`swing_length <= i <= n - swing_length - 1`) and its high is
strictly greater than every other high in the window (any tie or larger
neighbour disqualifies it); symmetrically for swing lows with strict `<`;
both outputs are in ascending position order. -/
theorem c2_swing_characterization (a : SMCAnalyzer) (df : DataFrame) (hs ls : List ℚ)
    (sh sl : List SwingPoint)
    (hcolh : df.highCol = some hs) (hlenh : hs.length = df.len)
    (hcoll : df.lowCol = some ls) (hlenl : ls.length = df.len)
    (hokh : find_swing_highs a df = .ok sh) (hokl : find_swing_lows a df = .ok sl) :
    (∀ i : Nat, (∃ p ∈ sh, p.index = i) ↔
      (a.swing_length ≤ i ∧ i + a.swing_length + 1 ≤ df.len ∧
        ∀ j, i - a.swing_length ≤ j → j ≤ i + a.swing_length → j ≠ i →
          hs.getD j 0 < hs.getD i 0)) ∧
    (∀ i : Nat, (∃ p ∈ sl, p.index = i) ↔
      (a.swing_length ≤ i ∧ i + a.swing_length + 1 ≤ df.len ∧
        ∀ j, i - a.swing_length ≤ j → j ≤ i + a.swing_length → j ≠ i →
          ls.getD i 0 < ls.getD j 0)) ∧
    List.Pairwise (fun p q : SwingPoint => p.index < q.index) sh ∧
    List.Pairwise (fun p q : SwingPoint => p.index < q.index) sl := by
  have hsh : sh = ((List.range' a.swing_length (df.len - 2 * a.swing_length)).filter
      (fun i => isSwingHighAt a hs i)).map
        (fun i => (⟨i, hs.getD i 0, df.index.getD i 0⟩ : SwingPoint)) := by
    have h := find_swing_highs_eq a df hs hcolh hlenh
    rw [hokh] at h
    exact Except.ok.inj h
  have hsl : sl = ((List.range' a.swing_length (df.len - 2 * a.swing_length)).filter
      (fun i => isSwingLowAt a ls i)).map
        (fun i => (⟨i, ls.getD i 0, df.index.getD i 0⟩ : SwingPoint)) := by
    have h := find_swing_lows_eq a df ls hcoll hlenl
    rw [hokl] at h
    exact Except.ok.inj h
  subst hsh
  subst hsl
  refine ⟨?_, ?_, swing_points_pairwise a df hs _, swing_points_pairwise a df ls _⟩
  · intro i
    constructor
    · rintro ⟨p, hp, rfl⟩
      rw [mem_swing_high_points] at hp
      obtain ⟨h1, h2, h3, h4, h5⟩ := hp
      exact ⟨h1, h2, (isSwingHighAt_iff a hs p.index h1).mp h3⟩
    · rintro ⟨h1, h2, h3⟩
      refine ⟨⟨i, hs.getD i 0, df.index.getD i 0⟩, ?_, rfl⟩
      rw [mem_swing_high_points]
      exact ⟨h1, h2, (isSwingHighAt_iff a hs i h1).mpr h3, rfl, rfl⟩
  · intro i
    constructor
    · rintro ⟨p, hp, rfl⟩
      rw [mem_swing_low_points] at hp
      obtain ⟨h1, h2, h3, h4, h5⟩ := hp
      exact ⟨h1, h2, (isSwingLowAt_iff a ls p.index h1).mp h3⟩
    · rintro ⟨h1, h2, h3⟩
      refine ⟨⟨i, ls.getD i 0, df.index.getD i 0⟩, ?_, rfl⟩
      rw [mem_swing_low_points]
      exact ⟨h1, h2, (isSwingLowAt_iff a ls i h1).mpr h3, rfl, rfl⟩

theorem c2_swing_characterization_witness :
    (∀ i : Nat, (∃ p ∈ bullSwingHighs, p.index = i) ↔
      (5 ≤ i ∧ i + 5 + 1 ≤ dfBull.len ∧
        ∀ j, i - 5 ≤ j → j ≤ i + 5 → j ≠ i →
          bullHighs.getD j 0 < bullHighs.getD i 0)) ∧
    (∀ i : Nat, (∃ p ∈ bullSwingLows, p.index = i) ↔
      (5 ≤ i ∧ i + 5 + 1 ≤ dfBull.len ∧
        ∀ j, i - 5 ≤ j → j ≤ i + 5 → j ≠ i →
          bullLows.getD i 0 < bullLows.getD j 0)) ∧
    List.Pairwise (fun p q : SwingPoint => p.index < q.index) bullSwingHighs ∧
    List.Pairwise (fun p q : SwingPoint => p.index < q.index) bullSwingLows :=
  c2_swing_characterization ⟨5⟩ dfBull bullHighs bullLows bullSwingHighs bullSwingLows
    rfl rfl rfl rfl rfl rfl

/-- C3: with fewer than two swing highs or lows the structure is the
neutral default; otherwise the verdict compares only the last two swing
highs and last two swing lows — higher high and higher low give BULLISH
with BOS, lower high and lower low give BEARISH with BOS, anything else is
NEUTRAL without BOS. -/
theorem c3_two_point_classification (a : SMCAnalyzer) (df : DataFrame)
    (sh sl : List SwingPoint)
    (hokh : find_swing_highs a df = .ok sh) (hokl : find_swing_lows a df = .ok sl) :
    ((sh.length < 2 ∨ sl.length < 2) →
      identify_market_structure a df = ⟨.NEUTRAL, false, false⟩) ∧
    (2 ≤ sh.length → 2 ≤ sl.length →
      identify_market_structure a df =
        (if (sh.getD (sh.length - 1) default).price >
              (sh.getD (sh.length - 2) default).price ∧
            (sl.getD (sl.length - 1) default).price >
              (sl.getD (sl.length - 2) default).price then
          ⟨.BULLISH, true, false⟩
        else if (sh.getD (sh.length - 1) default).price <
              (sh.getD (sh.length - 2) default).price ∧
            (sl.getD (sl.length - 1) default).price <
              (sl.getD (sl.length - 2) default).price then
          ⟨.BEARISH, true, false⟩
        else ⟨.NEUTRAL, false, false⟩)) := by
  have hid : identify_market_structure a df = structureOf sh sl := by
    unfold identify_market_structure identifyInner
    rw [hokh, hokl]
  constructor
  · intro hlt
    rw [hid]
    simp only [structureOf]
    rw [if_neg (by rcases hlt with h | h <;> omega : ¬(2 ≤ sh.length ∧ 2 ≤ sl.length))]
  · intro h2h h2l
    rw [hid]
    simp only [structureOf]
    rw [if_pos ⟨h2h, h2l⟩]
    have e1 : (sh.drop (sh.length - 2)).getD 1 default = sh.getD (sh.length - 1) default := by
      rw [List.getD_eq_getElem?_getD, List.getElem?_drop,
        show sh.length - 2 + 1 = sh.length - 1 from by omega, ← List.getD_eq_getElem?_getD]
    have e2 : (sh.drop (sh.length - 2)).getD 0 default = sh.getD (sh.length - 2) default := by
      rw [List.getD_eq_getElem?_getD, List.getElem?_drop, Nat.add_zero,
        ← List.getD_eq_getElem?_getD]
    have e3 : (sl.drop (sl.length - 2)).getD 1 default = sl.getD (sl.length - 1) default := by
      rw [List.getD_eq_getElem?_getD, List.getElem?_drop,
        show sl.length - 2 + 1 = sl.length - 1 from by omega, ← List.getD_eq_getElem?_getD]
    have e4 : (sl.drop (sl.length - 2)).getD 0 default = sl.getD (sl.length - 2) default := by
      rw [List.getD_eq_getElem?_getD, List.getElem?_drop, Nat.add_zero,
        ← List.getD_eq_getElem?_getD]
    rw [e1, e2, e3, e4]

theorem c3_two_point_classification_witness :
    ((bullSwingHighs.length < 2 ∨ bullSwingLows.length < 2) →
      identify_market_structure ⟨5⟩ dfBull = ⟨.NEUTRAL, false, false⟩) ∧
    (2 ≤ bullSwingHighs.length → 2 ≤ bullSwingLows.length →
      identify_market_structure ⟨5⟩ dfBull =
        (if (bullSwingHighs.getD (bullSwingHighs.length - 1) default).price >
              (bullSwingHighs.getD (bullSwingHighs.length - 2) default).price ∧
            (bullSwingLows.getD (bullSwingLows.length - 1) default).price >
              (bullSwingLows.getD (bullSwingLows.length - 2) default).price then
          ⟨.BULLISH, true, false⟩
        else if (bullSwingHighs.getD (bullSwingHighs.length - 1) default).price <
              (bullSwingHighs.getD (bullSwingHighs.length - 2) default).price ∧
            (bullSwingLows.getD (bullSwingLows.length - 1) default).price <
              (bullSwingLows.getD (bullSwingLows.length - 2) default).price then
          ⟨.BEARISH, true, false⟩
        else ⟨.NEUTRAL, false, false⟩)) :=
  c3_two_point_classification ⟨5⟩ dfBull bullSwingHighs bullSwingLows rfl rfl

/-- C10: two distinct swing points of the same kind are always separated by
more than the window half-width: their positions differ by at least
`swing_length + 1`. -/
theorem c10_swing_separation (a : SMCAnalyzer) (df : DataFrame) (hs ls : List ℚ)
    (sh sl : List SwingPoint)
    (hcolh : df.highCol = some hs) (hlenh : hs.length = df.len)
    (hcoll : df.lowCol = some ls) (hlenl : ls.length = df.len)
    (hokh : find_swing_highs a df = .ok sh) (hokl : find_swing_lows a df = .ok sl) :
    (∀ p ∈ sh, ∀ q ∈ sh, p ≠ q →
      a.swing_length + 1 ≤ ((p.index : ℤ) - (q.index : ℤ)).natAbs) ∧
    (∀ p ∈ sl, ∀ q ∈ sl, p ≠ q →
      a.swing_length + 1 ≤ ((p.index : ℤ) - (q.index : ℤ)).natAbs) := by
  have hsh : sh = ((List.range' a.swing_length (df.len - 2 * a.swing_length)).filter
      (fun i => isSwingHighAt a hs i)).map
        (fun i => (⟨i, hs.getD i 0, df.index.getD i 0⟩ : SwingPoint)) := by
    have h := find_swing_highs_eq a df hs hcolh hlenh
    rw [hokh] at h
    exact Except.ok.inj h
  have hsl : sl = ((List.range' a.swing_length (df.len - 2 * a.swing_length)).filter
      (fun i => isSwingLowAt a ls i)).map
        (fun i => (⟨i, ls.getD i 0, df.index.getD i 0⟩ : SwingPoint)) := by
    have h := find_swing_lows_eq a df ls hcoll hlenl
    rw [hokl] at h
    exact Except.ok.inj h
  subst hsh
  subst hsl
  constructor
  · intro p hp q hq hne
    rw [mem_swing_high_points] at hp hq
    obtain ⟨hp1, hp2, hp3, hp4, hp5⟩ := hp
    obtain ⟨hq1, hq2, hq3, hq4, hq5⟩ := hq
    have hne' : p.index ≠ q.index := by
      intro he
      apply hne
      obtain ⟨pi, pp, pt⟩ := p
      obtain ⟨qi, qp, qt⟩ := q
      dsimp only at hp4 hp5 hq4 hq5 he
      subst he
      rw [hp4, hq4, hp5, hq5]
    by_contra hcon
    push_neg at hcon
    rw [isSwingHighAt_iff a hs p.index hp1] at hp3
    rw [isSwingHighAt_iff a hs q.index hq1] at hq3
    have hqp : hs.getD q.index 0 < hs.getD p.index 0 :=
      hp3 q.index (by omega) (by omega) (Ne.symm hne')
    have hpq : hs.getD p.index 0 < hs.getD q.index 0 :=
      hq3 p.index (by omega) (by omega) hne'
    exact absurd hpq (not_lt.mpr hqp.le)
  · intro p hp q hq hne
    rw [mem_swing_low_points] at hp hq
    obtain ⟨hp1, hp2, hp3, hp4, hp5⟩ := hp
    obtain ⟨hq1, hq2, hq3, hq4, hq5⟩ := hq
    have hne' : p.index ≠ q.index := by
      intro he
      apply hne
      obtain ⟨pi, pp, pt⟩ := p
      obtain ⟨qi, qp, qt⟩ := q
      dsimp only at hp4 hp5 hq4 hq5 he
      subst he
      rw [hp4, hq4, hp5, hq5]
    by_contra hcon
    push_neg at hcon
    rw [isSwingLowAt_iff a ls p.index hp1] at hp3
    rw [isSwingLowAt_iff a ls q.index hq1] at hq3
    have hpq : ls.getD p.index 0 < ls.getD q.index 0 :=
      hp3 q.index (by omega) (by omega) (Ne.symm hne')
    have hqp : ls.getD q.index 0 < ls.getD p.index 0 :=
      hq3 p.index (by omega) (by omega) hne'
    exact absurd hpq (not_lt.mpr hqp.le)

theorem c10_swing_separation_witness :
    (∀ p ∈ bullSwingHighs, ∀ q ∈ bullSwingHighs, p ≠ q →
      5 + 1 ≤ ((p.index : ℤ) - (q.index : ℤ)).natAbs) ∧
    (∀ p ∈ bullSwingLows, ∀ q ∈ bullSwingLows, p ≠ q →
      5 + 1 ≤ ((p.index : ℤ) - (q.index : ℤ)).natAbs) :=
  c10_swing_separation ⟨5⟩ dfBull bullHighs bullLows bullSwingHighs bullSwingLows
    rfl rfl rfl rfl rfl rfl
